import Mathlib

/-!
Shallow embedding of the MongoDB CDC engine of `src/services/base-cdc.service.ts`
(class `BaseCdcService`) together with the option defaults of
`applyDefaultOptions` and the interfaces of `src/interfaces/cdc.interface.ts`.

Modelling conventions:
* Opaque store values (resume tokens, pipeline stages, documents, handler
  objects) are represented by `Nat` identifiers; presence/absence of an
  optional JS value is `Option`.
* The mutable engine fields (`watching`, `changeStream`, `resumeToken`,
  `reconnectAttempts`, `cdcOptions`, `handlers`) form `EngineState`.
  `pendingReconnects` counts armed `setTimeout` timers of `reconnect`:
  the source function `reconnect()` runs up to `await new Promise(setTimeout)`
  (modelled by `reconnectBegin`) and the remainder of its body runs when the
  timer fires (modelled by `reconnectFire`), which is the suspension point at
  which `stop()` can interleave.
* Calls to the outside world (model.watch, changeStream.close, logger
  warnings, sleeping, handler callbacks) are recorded in an event trace `Ev`.
  `model.watch` succeeding or throwing is the parameter `openOk`;
  `changeStream.close()` is modelled as succeeding.
* Handler callbacks are arbitrary code; within the engine API a handler can
  throw or un/register handlers.  The behaviour of a handler is a parameter
  `beh : Nat → HandlerAct`.  `notifyHandlers` iterates the live `handlers`
  array exactly as the JS `for...of` array iterator does: it keeps an index
  `k`, checks `k < length` against the current array, yields element `k`,
  then increments `k` (so `splice` removals by a handler shift later
  elements under the iterator).
* `changeStreamOptions` (a raw pass-through field spread into the watch
  options) is not used by any claim and is omitted from the option record.
-/

/-- Change operation kinds distinguished by the `switch` of `handleChange`;
`other` is the `default` branch (drop, rename, dropDatabase, invalidate, …). -/
inductive OpKind where
  | insert
  | update
  | replace
  | delete
  | other
  deriving Repr, DecidableEq

/-- The `switch (event.operationType)` of `handleChange`, on the raw
operation-type string. -/
def classify (op : String) : OpKind :=
  if op = "insert" then OpKind.insert
  else if op = "update" then OpKind.update
  else if op = "replace" then OpKind.replace
  else if op = "delete" then OpKind.delete
  else OpKind.other

/-- Shape of `CdcServiceOptions` after `applyDefaultOptions` ran in the constructor:
the four defaulted fields are total, the rest stay optional. -/
structure CdcOptions where
  fullDocument : String
  autoReconnect : Bool
  reconnectDelay : Nat
  maxReconnectAttempts : Nat
  resumeAfter : Option Nat
  startAtOperationTime : Option Nat
  batchSize : Option Nat
  maxAwaitTimeMS : Option Nat
  pipeline : Option (List Nat)
  deriving Repr, DecidableEq

/-- Shape of `CdcServiceOptions` as passed by the caller to the constructor: every
field may be absent. -/
structure RawOptions where
  fullDocument : Option String := none
  autoReconnect : Option Bool := none
  reconnectDelay : Option Nat := none
  maxReconnectAttempts : Option Nat := none
  resumeAfter : Option Nat := none
  startAtOperationTime : Option Nat := none
  batchSize : Option Nat := none
  maxAwaitTimeMS : Option Nat := none
  pipeline : Option (List Nat) := none
  deriving Repr, DecidableEq

/-- Source `applyDefaultOptions`: spread the defaults (fullDocument updateLookup,
autoReconnect true, reconnectDelay 1000, maxReconnectAttempts 5) under
`this.cdcOptions` — a field present in the caller options wins, otherwise
the default. -/
def applyDefaultOptions (raw : RawOptions) : CdcOptions where
  fullDocument := raw.fullDocument.getD "updateLookup"
  autoReconnect := raw.autoReconnect.getD true
  reconnectDelay := raw.reconnectDelay.getD 1000
  maxReconnectAttempts := raw.maxReconnectAttempts.getD 5
  resumeAfter := raw.resumeAfter
  startAtOperationTime := raw.startAtOperationTime
  batchSize := raw.batchSize
  maxAwaitTimeMS := raw.maxAwaitTimeMS
  pipeline := raw.pipeline

/-- The mutable fields of a `BaseCdcService` instance, plus the count of
armed reconnect timers (see the module comment). -/
structure EngineState where
  watching : Bool
  hasStream : Bool
  resumeToken : Option Nat
  reconnectAttempts : Nat
  cdcOptions : CdcOptions
  handlers : List Nat
  pendingReconnects : Nat
  deriving Repr, DecidableEq

/-- The constructor: fields initialised as declared, then
`applyDefaultOptions`. -/
def mkEngine (raw : RawOptions) : EngineState where
  watching := false
  hasStream := false
  resumeToken := none
  reconnectAttempts := 0
  cdcOptions := applyDefaultOptions raw
  handlers := []
  pendingReconnects := 0

/-- The `changeStreamOptions` object assembled by `start()` and handed to
`this.model.watch(pipeline, changeStreamOptions)`, together with the
pipeline argument. -/
structure OpenRequest where
  fullDocument : String
  resumeAfter : Option Nat
  startAtOperationTime : Option Nat
  batchSize : Option Nat
  maxAwaitTimeMS : Option Nat
  pipeline : List Nat
  deriving Repr, DecidableEq

/-- Source `start()` builds the watch options: `fullDocument` always, the optional
fields only when truthy (`if (this.cdcOptions.resumeAfter) ...` etc.), and
`this.cdcOptions.pipeline || []`. -/
def buildOpenRequest (o : CdcOptions) : OpenRequest where
  fullDocument := o.fullDocument
  resumeAfter := o.resumeAfter
  startAtOperationTime := o.startAtOperationTime
  batchSize := o.batchSize
  maxAwaitTimeMS := o.maxAwaitTimeMS
  pipeline := o.pipeline.getD []

/-- Externally visible actions of the engine, in execution order. -/
inductive Ev where
  | warnAlready
  | warnNotWatching
  | openSub (req : OpenRequest)
  | closeSub
  | setToken (t : Nat)
  | hookRun (k : OpKind) (tok : Option Nat)
  | hookFailed (k : OpKind)
  | handlerEvent (h : Nat) (tok : Option Nat)
  | handlerError (h : Nat)
  | handlerClose (h : Nat)
  | sleep (ms : Nat)
  | logTerminal
  deriving Repr, DecidableEq

/-- Source `isWatching()`. -/
def isWatching (st : EngineState) : Bool :=
  st.watching

/-- Source `getResumeToken()`. -/
def getResumeToken (st : EngineState) : Option Nat :=
  st.resumeToken

/-- Source `registerHandler`: push the handler unless already included. -/
def registerHandler (h : Nat) (hs : List Nat) : List Nat :=
  if hs.contains h then hs else hs ++ [h]

/-- Source `unregisterHandler`: `indexOf` then `splice(index, 1)` when found — i.e.
remove the first occurrence, no-op when absent. -/
def unregisterHandler (h : Nat) (hs : List Nat) : List Nat :=
  hs.erase h

/-- What the `onEvent` body of a handler does, as far as the engine can observe:
return normally, throw, or call `unregisterHandler` on itself or another
handler before returning. -/
inductive HandlerAct where
  | ok
  | throwErr
  | unregisterSelf
  | unregisterOther (t : Nat)
  deriving Repr, DecidableEq

/-- The effect that running the `onEvent` of handler `h` has on the live
handler array. -/
def handlerEffect (beh : Nat → HandlerAct) (h : Nat) (hs : List Nat) : List Nat :=
  match beh h with
  | HandlerAct.ok => hs
  | HandlerAct.throwErr => hs
  | HandlerAct.unregisterSelf => unregisterHandler h hs
  | HandlerAct.unregisterOther t => unregisterHandler t hs

/-- Does `beh h` throw?  (The throw is caught by the `try/catch` of
`notifyHandlers` and logged.) -/
def actThrows (beh : Nat → HandlerAct) (h : Nat) : Bool :=
  beh h = HandlerAct.throwErr

/-- Source loop `for (const handler of this.handlers)` of `notifyHandlers`,
started at index `k`: while `k` is below the length of the live array, run element `k` in a
`try/catch` (a throw is caught and logged), apply its registry effect, and
continue at `k + 1`.  Returns the final handler array and the invocation
trace: one `(handler, threw)` pair per `onEvent` call, in call order.
`fuel` is a structural-recursion bound only; `notifyLoop_fuel_ext` below
shows any fuel at least `hs.length - k` gives the same result, so the bound
never cuts the iteration short (the live array can only shrink). -/
def notifyLoop (beh : Nat → HandlerAct) : Nat → List Nat → Nat →
    List Nat × List (Nat × Bool)
  | 0, hs, _ => (hs, [])
  | fuel + 1, hs, k =>
    if hlt : k < hs.length then
      let hd := hs.get ⟨k, hlt⟩
      let r := notifyLoop beh fuel (handlerEffect beh hd hs) (k + 1)
      (r.1, (hd, actThrows beh hd) :: r.2)
    else
      (hs, [])

/-- Source `notifyHandlers(event)`: iterate the live handler list from index 0. -/
def notifyHandlers (beh : Nat → HandlerAct) (hs : List Nat) :
    List Nat × List (Nat × Bool) :=
  notifyLoop beh hs.length hs 0

/-- Canonical entry of the iteration at index `k` (fuel saturated). -/
def runFrom (beh : Nat → HandlerAct) (hs : List Nat) (k : Nat) :
    List Nat × List (Nat × Bool) :=
  notifyLoop beh (hs.length - k) hs k

/-- Source `shouldReconnect()`: `maxReconnectAttempts || 0` equal to zero means unlimited, else compare the
attempt counter. -/
def shouldReconnect (st : EngineState) : Bool :=
  st.cdcOptions.maxReconnectAttempts = 0 ||
    st.reconnectAttempts < st.cdcOptions.maxReconnectAttempts

/-- Result of `start()`: new state, trace, and whether it threw to its
caller. -/
structure StartResult where
  st : EngineState
  trace : List Ev
  threw : Bool
  deriving Repr, DecidableEq

/-- Source `start()`: warn and return when already watching; otherwise build the
watch options and call `model.watch` (its success is the environment
parameter `openOk`).  On success install the stream, set `watching`, reset
the attempt counter; on failure log and rethrow, leaving the state as it
was. -/
def start (openOk : Bool) (st : EngineState) : StartResult :=
  if st.watching then
    { st := st, trace := [Ev.warnAlready], threw := false }
  else
    let req := buildOpenRequest st.cdcOptions
    if openOk then
      { st := { st with hasStream := true, watching := true, reconnectAttempts := 0 },
        trace := [Ev.openSub req],
        threw := false }
    else
      { st := st, trace := [Ev.openSub req], threw := true }

/-- Source `stop()`: warn and return when not watching; otherwise close and drop
the stream and clear `watching` (the close call is modelled as
succeeding). -/
def stop (st : EngineState) : EngineState × List Ev :=
  if st.watching then
    if st.hasStream then
      ({ st with hasStream := false, watching := false }, [Ev.closeSub])
    else
      ({ st with watching := false }, [])
  else
    (st, [Ev.warnNotWatching])

/-- Source `reconnect()` up to its `await new Promise(setTimeout)`: increment the
attempt counter and arm the delay timer (`reconnectDelay || 1000`). -/
def reconnectBegin (st : EngineState) : EngineState × List Ev :=
  let delay := if st.cdcOptions.reconnectDelay = 0 then 1000 else st.cdcOptions.reconnectDelay
  ({ st with
      reconnectAttempts := st.reconnectAttempts + 1,
      pendingReconnects := st.pendingReconnects + 1 },
   [Ev.sleep delay])

/-- The remainder of `reconnect()` once its timer fires: copy the stored
resume token into `cdcOptions.resumeAfter` when one is set, call `start()`;
if `start()` threw, either recurse (arming a new timer) while
`shouldReconnect()` holds or log the terminal condition. -/
def reconnectFire (openOk : Bool) (st : EngineState) : EngineState × List Ev :=
  let st0 := { st with pendingReconnects := st.pendingReconnects - 1 }
  let st1 :=
    match st0.resumeToken with
    | some t => { st0 with cdcOptions := { st0.cdcOptions with resumeAfter := some t } }
    | none => st0
  let r := start openOk st1
  if r.threw then
    if shouldReconnect r.st then
      let b := reconnectBegin r.st
      (b.1, r.trace ++ b.2)
    else
      (r.st, r.trace ++ [Ev.logTerminal])
  else
    (r.st, r.trace)

/-- Source `handleError(error)`: log, call the `onError` of each handler (failures
isolated), then when `autoReconnect && shouldReconnect()` enter
`reconnect()` (up to its suspension point). -/
def handleError (st : EngineState) : EngineState × List Ev :=
  let errEvs := st.handlers.map Ev.handlerError
  if st.cdcOptions.autoReconnect && shouldReconnect st then
    let b := reconnectBegin st
    (b.1, errEvs ++ b.2)
  else
    (st, errEvs)

/-- Source `handleClose()`: clear `watching`, call the `onClose` of each handler
(failures isolated), then when `autoReconnect && shouldReconnect()` enter
`reconnect()` (up to its suspension point). -/
def handleClose (st : EngineState) : EngineState × List Ev :=
  let st0 := { st with watching := false }
  let closeEvs := st.handlers.map Ev.handlerClose
  if st0.cdcOptions.autoReconnect && shouldReconnect st0 then
    let b := reconnectBegin st0
    (b.1, closeEvs ++ b.2)
  else
    (st0, closeEvs)

/-- A raw change-stream notification as `handleChange` reads it: `_id` is
the resume token, `operationType` the raw string (the remaining event
fields are copied verbatim into the dispatched event and play no role in
control flow). -/
structure RawChange where
  id : Option Nat
  operationType : String
  deriving Repr, DecidableEq

/-- Result of one `handleChange(change)` dispatch. `errorPath` records
whether the `catch` of the surrounding `try` ran (i.e. `handleError` was invoked
from the dispatch). -/
structure ChangeResult where
  st : EngineState
  trace : List Ev
  errorPath : Bool
  deriving Repr, DecidableEq

/-- Source `handleChange(change)`: store `change._id` as the resume token when
present, dispatch by operation type to the matching hook (its failure is
the environment parameter `hookFails`), then `notifyHandlers`.  The whole
body is one `try`: a hook throw jumps to the `catch`, which logs and awaits
`handleError`, skipping `notifyHandlers`.  Hook and handler invocations are
recorded with the resume-token value stored at the time they run. -/
def handleChange (hookFails : OpKind → Bool) (beh : Nat → HandlerAct)
    (c : RawChange) (st : EngineState) : ChangeResult :=
  let st1 :=
    match c.id with
    | some t => { st with resumeToken := some t }
    | none => st
  let tokEvs :=
    match c.id with
    | some t => [Ev.setToken t]
    | none => []
  let k := classify c.operationType
  if hookFails k then
    let e := handleError st1
    { st := e.1, trace := tokEvs ++ [Ev.hookFailed k] ++ e.2, errorPath := true }
  else
    let r := notifyHandlers beh st1.handlers
    { st := { st1 with handlers := r.1 },
      trace := tokEvs ++ [Ev.hookRun k st1.resumeToken]
        ++ r.2.map (fun p => Ev.handlerEvent p.1 st1.resumeToken),
      errorPath := false }

/-- The resume-token values attached to `handlerEvent` entries of a
trace. -/
def handlerEventTokens (tr : List Ev) : List (Option Nat) :=
  tr.filterMap fun e =>
    match e with
    | Ev.handlerEvent _ tok => some tok
    | _ => none

/-- The resume-token values attached to `hookRun` entries of a trace. -/
def hookRunTokens (tr : List Ev) : List (Option Nat) :=
  tr.filterMap fun e =>
    match e with
    | Ev.hookRun _ tok => some tok
    | _ => none

/-- Does a trace contain any `onEvent` handler invocation? -/
def hasHandlerEvent (tr : List Ev) : Bool :=
  tr.any fun e =>
    match e with
    | Ev.handlerEvent _ _ => true
    | _ => false

/-- Does a trace contain any open-subscription request? -/
def hasOpenSub (tr : List Ev) : Bool :=
  tr.any fun e =>
    match e with
    | Ev.openSub _ => true
    | _ => false

/-- The open-subscription requests issued in a trace, in order. -/
def openRequests (tr : List Ev) : List OpenRequest :=
  tr.filterMap fun e =>
    match e with
    | Ev.openSub req => some req
    | _ => none

/-- Handlers that either return normally or throw, never touching the
registry: handler `h` throws iff `b h`. -/
def behOfBool (b : Nat → Bool) (h : Nat) : HandlerAct :=
  if b h then HandlerAct.throwErr else HandlerAct.ok

/-- Handler `a` unregisters itself from within its own `onEvent`; every
other handler returns normally. -/
def behSelf (a : Nat) (h : Nat) : HandlerAct :=
  if h = a then HandlerAct.unregisterSelf else HandlerAct.ok

/-- An options record with its `resumeAfter` field cleared — used to state
which option fields an operation is allowed to modify. -/
def stripResume (o : CdcOptions) : CdcOptions :=
  { o with resumeAfter := none }

/-- Acts that leave the handler registry untouched. -/
def nonMutAct : HandlerAct → Bool
  | HandlerAct.ok => true
  | HandlerAct.throwErr => true
  | HandlerAct.unregisterSelf => false
  | HandlerAct.unregisterOther _ => false

/- ------------------------------------------------------------------ -/
/- Helper lemmas about the dispatch loop and the state machine.       -/
/- ------------------------------------------------------------------ -/

theorem handlerEffect_length_le (beh : Nat → HandlerAct) (h : Nat) (hs : List Nat) :
    (handlerEffect beh h hs).length ≤ hs.length := by
  unfold handlerEffect unregisterHandler
  cases beh h <;> simp [(List.erase_sublist _ _).length_le]

theorem notifyLoop_fuel_ext (beh : Nat → HandlerAct) :
    ∀ f₁ f₂ hs k, hs.length - k ≤ f₁ → hs.length - k ≤ f₂ →
      notifyLoop beh f₁ hs k = notifyLoop beh f₂ hs k := by
  intro f₁
  induction f₁ with
  | zero =>
    intro f₂ hs k h1 _
    have hk : ¬ k < hs.length := by omega
    cases f₂ with
    | zero => rfl
    | succ f₂ => simp [notifyLoop, hk]
  | succ f₁ ih =>
    intro f₂ hs k h1 h2
    by_cases hk : k < hs.length
    · cases f₂ with
      | zero => omega
      | succ f₂ =>
        have hle := handlerEffect_length_le beh (hs.get ⟨k, hk⟩) hs
        simp only [notifyLoop, hk, dif_pos]
        rw [ih f₂ _ (k + 1) (by omega) (by omega)]
    · cases f₂ with
      | zero => simp [notifyLoop, hk]
      | succ f₂ => simp [notifyLoop, hk]

theorem notifyHandlers_eq_runFrom (beh : Nat → HandlerAct) (hs : List Nat) :
    notifyHandlers beh hs = runFrom beh hs 0 :=
  notifyLoop_fuel_ext beh _ _ hs 0 (by omega) (by omega)

theorem runFrom_stop (beh : Nat → HandlerAct) (hs : List Nat) (k : Nat)
    (hk : ¬ k < hs.length) : runFrom beh hs k = (hs, []) := by
  have : hs.length - k = 0 := by omega
  rw [runFrom, this, notifyLoop]

theorem runFrom_step (beh : Nat → HandlerAct) (hs : List Nat) (k : Nat)
    (hlt : k < hs.length) :
    runFrom beh hs k =
      ((runFrom beh (handlerEffect beh (hs.get ⟨k, hlt⟩) hs) (k + 1)).1,
        (hs.get ⟨k, hlt⟩, actThrows beh (hs.get ⟨k, hlt⟩)) ::
          (runFrom beh (handlerEffect beh (hs.get ⟨k, hlt⟩) hs) (k + 1)).2) := by
  have hsf : hs.length - k = (hs.length - (k + 1)) + 1 := by omega
  have hle := handlerEffect_length_le beh (hs.get ⟨k, hlt⟩) hs
  rw [runFrom, hsf]
  simp only [notifyLoop, hlt, dif_pos]
  rw [notifyLoop_fuel_ext beh (hs.length - (k + 1))
    ((handlerEffect beh (hs.get ⟨k, hlt⟩) hs).length - (k + 1))
    (handlerEffect beh (hs.get ⟨k, hlt⟩) hs) (k + 1) (by omega) (by omega)]
  rfl

theorem handlerEffect_of_nonMut (beh : Nat → HandlerAct) (h : Nat) (hs : List Nat)
    (hnm : nonMutAct (beh h) = true) : handlerEffect beh h hs = hs := by
  cases hb : beh h <;> simp_all [handlerEffect, nonMutAct]

/-- A run over a segment of non-registry-mutating handlers invokes exactly
the elements from index `k` on, in order, and leaves the registry as it
was. -/
theorem runFrom_nonMut (beh : Nat → HandlerAct) :
    ∀ n hs k, hs.length - k = n →
      (∀ x ∈ hs.drop k, nonMutAct (beh x) = true) →
      runFrom beh hs k = (hs, (hs.drop k).map fun h => (h, actThrows beh h)) := by
  intro n
  induction n with
  | zero =>
    intro hs k hn _
    have hk : ¬ k < hs.length := by omega
    rw [runFrom_stop beh hs k hk, List.drop_eq_nil_of_le (by omega)]
    rfl
  | succ n ih =>
    intro hs k hn hnm
    have hlt : k < hs.length := by omega
    have hdrop : hs.drop k = hs.get ⟨k, hlt⟩ :: hs.drop (k + 1) :=
      List.drop_eq_getElem_cons hlt
    have hhd : nonMutAct (beh (hs.get ⟨k, hlt⟩)) = true := by
      apply hnm
      rw [hdrop]
      exact List.mem_cons_self _ _
    rw [runFrom_step beh hs k hlt, handlerEffect_of_nonMut beh _ hs hhd,
      ih hs (k + 1) (by omega) (fun x hx => hnm x (by rw [hdrop]; exact List.mem_cons_of_mem _ hx))]
    rw [hdrop]
    rfl

/-- Every handler invoked by the loop was in the registry when the loop
reached it; since handlers can only be removed, it was in the registry the
loop started from. -/
theorem runFrom_trace_subset (beh : Nat → HandlerAct) :
    ∀ n hs k, hs.length - k ≤ n →
      ∀ x ∈ (runFrom beh hs k).2.map Prod.fst, x ∈ hs := by
  intro n
  induction n with
  | zero =>
    intro hs k hn x hx
    rw [runFrom_stop beh hs k (by omega)] at hx
    simp at hx
  | succ n ih =>
    intro hs k hn x hx
    by_cases hlt : k < hs.length
    · rw [runFrom_step beh hs k hlt] at hx
      simp only [List.map_cons, List.mem_cons] at hx
      rcases hx with hx | hx
      · rw [hx]; exact hs.get_mem _ _
      · have hle := handlerEffect_length_le beh (hs.get ⟨k, hlt⟩) hs
        have hmem := ih (handlerEffect beh (hs.get ⟨k, hlt⟩) hs) (k + 1) (by omega) x hx
        have hsub : List.Sublist (handlerEffect beh (hs.get ⟨k, hlt⟩) hs) hs := by
          unfold handlerEffect unregisterHandler
          cases beh (hs.get ⟨k, hlt⟩) <;>
            first | exact List.Sublist.refl _ | exact List.erase_sublist _ _
        exact hsub.subset hmem
    · rw [runFrom_stop beh hs k hlt] at hx
      simp at hx

theorem handlerEventTokens_append (t1 t2 : List Ev) :
    handlerEventTokens (t1 ++ t2) = handlerEventTokens t1 ++ handlerEventTokens t2 := by
  simp [handlerEventTokens]

theorem hookRunTokens_append (t1 t2 : List Ev) :
    hookRunTokens (t1 ++ t2) = hookRunTokens t1 ++ hookRunTokens t2 := by
  simp [hookRunTokens]

theorem handlerEventTokens_map_handlerError (l : List Nat) :
    handlerEventTokens (l.map Ev.handlerError) = [] := by
  induction l with
  | nil => rfl
  | cons a l ih => simp [handlerEventTokens]

theorem hookRunTokens_map_handlerError (l : List Nat) :
    hookRunTokens (l.map Ev.handlerError) = [] := by
  induction l with
  | nil => rfl
  | cons a l ih => simp [hookRunTokens]

theorem hasOpenSub_map_handlerError (l : List Nat) :
    hasOpenSub (l.map Ev.handlerError) = false := by
  induction l with
  | nil => rfl
  | cons a l ih => simp [hasOpenSub]

theorem hasHandlerEvent_append (t1 t2 : List Ev) :
    hasHandlerEvent (t1 ++ t2) = (hasHandlerEvent t1 || hasHandlerEvent t2) := by
  simp [hasHandlerEvent]

theorem hasHandlerEvent_map_handlerError (l : List Nat) :
    hasHandlerEvent (l.map Ev.handlerError) = false := by
  induction l with
  | nil => rfl
  | cons a l ih => simp [hasHandlerEvent]

theorem hasHandlerEvent_handleError (st : EngineState) :
    hasHandlerEvent (handleError st).2 = false := by
  unfold handleError reconnectBegin
  split_ifs <;>
    simp [hasHandlerEvent_append, hasHandlerEvent_map_handlerError, hasHandlerEvent]

theorem handleError_resumeToken (st : EngineState) :
    (handleError st).1.resumeToken = st.resumeToken := by
  unfold handleError reconnectBegin
  split <;> rfl

theorem handlerEventTokens_handleError (st : EngineState) :
    handlerEventTokens (handleError st).2 = [] := by
  unfold handleError reconnectBegin
  split <;>
    simp [handlerEventTokens_append, handlerEventTokens_map_handlerError, handlerEventTokens]

theorem hookRunTokens_handleError (st : EngineState) :
    hookRunTokens (handleError st).2 = [] := by
  unfold handleError reconnectBegin
  split <;>
    simp [hookRunTokens_append, hookRunTokens_map_handlerError, hookRunTokens]

/- ------------------------------------------------------------------ -/
/- Claim theorems.                                                    -/
/- ------------------------------------------------------------------ -/

/-- C1: for every notification processed by `handleChange` that carries a
resume token, the stored resume position is updated to that token before
the operation-specific hook and before any `onEvent` of a registered
handler runs: afterwards `getResumeToken()` equals the token of that
notification, the
dispatch trace starts with storing the token, and both the hook and every
handler invocation observe that token already stored. -/
theorem c1_resume_position_updated_before_dispatch
    (hookFails : OpKind → Bool) (beh : Nat → HandlerAct)
    (c : RawChange) (st : EngineState) (t : Nat) (hid : c.id = some t) :
    getResumeToken (handleChange hookFails beh c st).st = some t ∧
    (∃ rest, (handleChange hookFails beh c st).trace = Ev.setToken t :: rest) ∧
    (handlerEventTokens (handleChange hookFails beh c st).trace).all
      (fun tok => tok == some t) = true ∧
    (hookRunTokens (handleChange hookFails beh c st).trace).all
      (fun tok => tok == some t) = true := by
  unfold handleChange
  rw [hid]
  by_cases hf : hookFails (classify c.operationType)
  · simp only [hf, if_true]
    refine ⟨?_, ⟨_, rfl⟩, ?_, ?_⟩
    · show getResumeToken (handleError _).1 = some t
      rw [getResumeToken, handleError_resumeToken]
    · rw [handlerEventTokens_append, handlerEventTokens_append, handlerEventTokens_handleError]
      rfl
    · rw [hookRunTokens_append, hookRunTokens_append, hookRunTokens_handleError]
      rfl
  · simp only [hf, if_false]
    refine ⟨rfl, ⟨_, rfl⟩, ?_, ?_⟩
    · simp [handlerEventTokens, List.filterMap_map, Function.comp]
    · simp [hookRunTokens, List.filterMap_map, Function.comp]

/-- C1 witness: an insert notification with token 5 against a watching
engine with one registered handler. -/
theorem c1_witness :
    getResumeToken (handleChange (fun _ => false) (behOfBool fun _ => false)
      { id := some 5, operationType := "insert" }
      { mkEngine {} with watching := true, hasStream := true, handlers := [7] }).st
      = some 5 ∧
    (∃ rest, (handleChange (fun _ => false) (behOfBool fun _ => false)
      { id := some 5, operationType := "insert" }
      { mkEngine {} with watching := true, hasStream := true, handlers := [7] }).trace
      = Ev.setToken 5 :: rest) ∧
    (handlerEventTokens (handleChange (fun _ => false) (behOfBool fun _ => false)
      { id := some 5, operationType := "insert" }
      { mkEngine {} with watching := true, hasStream := true, handlers := [7] }).trace).all
      (fun tok => tok == some 5) = true ∧
    (hookRunTokens (handleChange (fun _ => false) (behOfBool fun _ => false)
      { id := some 5, operationType := "insert" }
      { mkEngine {} with watching := true, hasStream := true, handlers := [7] }).trace).all
      (fun tok => tok == some 5) = true :=
  c1_resume_position_updated_before_dispatch _ _ _ _ 5 rfl

/-- C2: a reconnect attempt firing while a resume position is recorded
issues its open-subscription request with `resumeAfter` equal to that
recorded position (every request issued by the attempt carries it, and at
least one request is issued). -/
theorem c2_reconnect_carries_resume_position
    (openOk : Bool) (st : EngineState) (t : Nat)
    (ht : st.resumeToken = some t) (hw : st.watching = false) :
    hasOpenSub (reconnectFire openOk st).2 = true ∧
    (openRequests (reconnectFire openOk st).2).all
      (fun req => req.resumeAfter == some t) = true := by
  unfold reconnectFire
  rw [show ({ st with pendingReconnects := st.pendingReconnects - 1 } : EngineState).resumeToken
    = st.resumeToken from rfl, ht]
  unfold start
  simp only [hw, if_false]
  cases openOk with
  | true =>
    simp [hasOpenSub, openRequests, buildOpenRequest]
  | false =>
    simp only [if_false, Bool.false_eq_true]
    split_ifs <;> simp [hasOpenSub, openRequests, buildOpenRequest, reconnectBegin]

/-- C2 witness: reconnect fires on a stopped engine holding token 9. -/
theorem c2_witness :
    hasOpenSub (reconnectFire true
      { mkEngine {} with resumeToken := some 9, pendingReconnects := 1 }).2 = true ∧
    (openRequests (reconnectFire true
      { mkEngine {} with resumeToken := some 9, pendingReconnects := 1 }).2).all
      (fun req => req.resumeAfter == some 9) = true :=
  c2_reconnect_carries_resume_position true _ 9 rfl rfl

/-- C3 counterexample: a watching engine with handler 7 registered receives
an insert notification whose hook throws; the dispatch takes the error path
and no `onEvent` of a registered handler runs, although 7 is still
registered. -/
theorem c3_counterexample_hook_failure_skips_handlers :
    (handleChange (fun _ => true) (fun _ => HandlerAct.ok)
      { id := some 1, operationType := "insert" }
      { mkEngine { autoReconnect := some false } with
        watching := true
        hasStream := true
        handlers := [7] }).errorPath = true ∧
    hasHandlerEvent (handleChange (fun _ => true) (fun _ => HandlerAct.ok)
      { id := some 1, operationType := "insert" }
      { mkEngine { autoReconnect := some false } with
        watching := true
        hasStream := true
        handlers := [7] }).trace = false ∧
    (handleChange (fun _ => true) (fun _ => HandlerAct.ok)
      { id := some 1, operationType := "insert" }
      { mkEngine { autoReconnect := some false } with
        watching := true
        hasStream := true
        handlers := [7] }).st.handlers = [7] := by
  decide

/-- C3 (amended): when the operation-specific hook completes normally,
`onEvent` is called on every registered handler in registration order
(awaiting each before the next); when the hook throws, the dispatch is
routed to the subscription-error path and the registered handlers do not
receive `onEvent` for that notification. -/
theorem c3_handlers_after_hook
    (hookFails : OpKind → Bool) (b : Nat → Bool) (c : RawChange) (st : EngineState) :
    (hookFails (classify c.operationType) = false →
      (handleChange hookFails (behOfBool b) c st).errorPath = false ∧
      (handleChange hookFails (behOfBool b) c st).trace =
        (match c.id with
          | some t => [Ev.setToken t]
          | none => []) ++
        [Ev.hookRun (classify c.operationType)
          (getResumeToken (handleChange hookFails (behOfBool b) c st).st)] ++
        st.handlers.map (fun h => Ev.handlerEvent h
          (getResumeToken (handleChange hookFails (behOfBool b) c st).st))) ∧
    (hookFails (classify c.operationType) = true →
      (handleChange hookFails (behOfBool b) c st).errorPath = true ∧
      hasHandlerEvent (handleChange hookFails (behOfBool b) c st).trace = false) := by
  have hnotify : ∀ hs : List Nat, notifyHandlers (behOfBool b) hs =
      (hs, hs.map fun h => (h, actThrows (behOfBool b) h)) := by
    intro hs
    rw [notifyHandlers_eq_runFrom,
      runFrom_nonMut (behOfBool b) hs.length hs 0 (by omega)
        (fun x _ => by unfold behOfBool; cases b x <;> rfl)]
    simp
  constructor
  · intro hf
    unfold handleChange
    simp only [hf, if_false, hnotify, Bool.false_eq_true]
    cases c.id <;> simp [getResumeToken]
  · intro hf
    unfold handleChange
    simp only [hf, if_true]
    constructor
    · trivial
    · show hasHandlerEvent (_ ++ _ ++ _) = false
      rw [hasHandlerEvent_append, hasHandlerEvent_append, hasHandlerEvent_handleError]
      cases hci : c.id <;> simp [hci, hasHandlerEvent]

/-- C3 witness: an update notification whose hook succeeds, dispatched to
two registered handlers that both throw; both still receive `onEvent`, in
order, with the stored token attached. -/
theorem c3_witness :
    (handleChange (fun _ => false) (behOfBool fun _ => true)
      { id := some 2, operationType := "update" }
      { mkEngine {} with
        watching := true
        hasStream := true
        handlers := [4, 5] }).errorPath = false ∧
    (handleChange (fun _ => false) (behOfBool fun _ => true)
      { id := some 2, operationType := "update" }
      { mkEngine {} with
        watching := true
        hasStream := true
        handlers := [4, 5] }).trace =
      [Ev.setToken 2, Ev.hookRun OpKind.update (some 2),
        Ev.handlerEvent 4 (some 2), Ev.handlerEvent 5 (some 2)] := by
  have h := (c3_handlers_after_hook (fun _ => false) (fun _ => true)
    { id := some 2, operationType := "update" }
    { mkEngine {} with
      watching := true
      hasStream := true
      handlers := [4, 5] }).1 rfl
  exact ⟨h.1, by rw [h.2]; rfl⟩

/-- C4 (code-bug exhibit): an error event while watching arms the reconnect
timer; `stop()` then completes (the engine reports it is no longer
watching and the stream is closed) but the armed timer is untouched; when
the delay elapses the engine issues a new open-subscription request and is
watching again.  `stop()` during a pending reconnect delay cancels
nothing. -/
theorem c4_stop_does_not_cancel_pending_reconnect :
    (let st0 : EngineState := { mkEngine {} with
      watching := true
      hasStream := true
      resumeToken := some 3 }
    let afterError := (handleError st0).1
    let afterStop := (stop afterError).1
    let afterTimer := reconnectFire true afterStop
    afterError.pendingReconnects = 1 ∧
    isWatching afterStop = false ∧
    afterStop.pendingReconnects = 1 ∧
    hasOpenSub afterTimer.2 = true ∧
    isWatching afterTimer.1 = true) := by
  decide

/-- C5 counterexample: with `autoReconnect = false`, processing an error
event makes zero reopen attempts but leaves the engine watching:
`isWatching()` still returns `true` afterwards, contradicting the claimed
transition to `Stopped`. -/
theorem c5_counterexample_error_leaves_watching :
    (let st0 : EngineState := { mkEngine { autoReconnect := some false } with
      watching := true
      hasStream := true
      resumeToken := some 1 }
    isWatching (handleError st0).1 = true ∧
    hasOpenSub (handleError st0).2 = false ∧
    (handleError st0).1.pendingReconnects = 0) := by
  decide

/-- C5 (amended): with `autoReconnect = false` an error event performs zero
subscription-reopen attempts (no open request, no timer armed, attempt
counter unchanged) and leaves the engine state — in particular the
`watching` flag — exactly as it was; the engine only leaves the watching
state when the close event of the stream is processed. -/
theorem c5_no_reconnect_when_disabled (st : EngineState)
    (hA : st.cdcOptions.autoReconnect = false) :
    handleError st = (st, st.handlers.map Ev.handlerError) ∧
    hasOpenSub (handleError st).2 = false ∧
    isWatching (handleError st).1 = isWatching st ∧
    (handleError st).1.pendingReconnects = st.pendingReconnects ∧
    (handleError st).1.reconnectAttempts = st.reconnectAttempts := by
  have h : handleError st = (st, st.handlers.map Ev.handlerError) := by
    unfold handleError
    simp [hA]
  refine ⟨h, ?_, ?_, ?_, ?_⟩ <;> rw [h] <;> simp [hasOpenSub_map_handlerError]

/-- C5 witness: a watching engine with `autoReconnect = false` and one
registered handler. -/
theorem c5_witness :
    handleError { mkEngine { autoReconnect := some false } with
      watching := true
      hasStream := true
      handlers := [4] } =
      ({ mkEngine { autoReconnect := some false } with
        watching := true
        hasStream := true
        handlers := [4] },
        ({ mkEngine { autoReconnect := some false } with
          watching := true
          hasStream := true
          handlers := [4] } : EngineState).handlers.map Ev.handlerError) ∧
    hasOpenSub (handleError { mkEngine { autoReconnect := some false } with
      watching := true
      hasStream := true
      handlers := [4] }).2 = false ∧
    isWatching (handleError { mkEngine { autoReconnect := some false } with
      watching := true
      hasStream := true
      handlers := [4] }).1 =
      isWatching { mkEngine { autoReconnect := some false } with
        watching := true
        hasStream := true
        handlers := [4] } ∧
    (handleError { mkEngine { autoReconnect := some false } with
      watching := true
      hasStream := true
      handlers := [4] }).1.pendingReconnects =
      ({ mkEngine { autoReconnect := some false } with
        watching := true
        hasStream := true
        handlers := [4] } : EngineState).pendingReconnects ∧
    (handleError { mkEngine { autoReconnect := some false } with
      watching := true
      hasStream := true
      handlers := [4] }).1.reconnectAttempts =
      ({ mkEngine { autoReconnect := some false } with
        watching := true
        hasStream := true
        handlers := [4] } : EngineState).reconnectAttempts :=
  c5_no_reconnect_when_disabled _ rfl

/-- C7: calling `start()` on an engine that is already watching performs no
open-subscription call and returns without error (warning only, state
unchanged); calling `stop()` on an engine that is not watching performs no
close-subscription call and returns without error (warning only, state
unchanged). -/
theorem c7_idempotent_start_stop (openOk : Bool) (st : EngineState) :
    (st.watching = true →
      start openOk st = { st := st, trace := [Ev.warnAlready], threw := false } ∧
      hasOpenSub (start openOk st).trace = false) ∧
    (st.watching = false →
      stop st = (st, [Ev.warnNotWatching]) ∧
      Ev.closeSub ∉ (stop st).2) := by
  constructor
  · intro hw
    unfold start
    simp [hw, hasOpenSub]
  · intro hw
    unfold stop
    simp [hw]

/-- C7 witness: double-start on a watching engine and a stop on a fresh
(non-watching) engine. -/
theorem c7_witness :
    (start true { mkEngine {} with watching := true, hasStream := true } =
      { st := { mkEngine {} with watching := true, hasStream := true }
        trace := [Ev.warnAlready]
        threw := false } ∧
      hasOpenSub (start true { mkEngine {} with
        watching := true, hasStream := true }).trace = false) ∧
    (stop (mkEngine {}) = (mkEngine {}, [Ev.warnNotWatching]) ∧
      Ev.closeSub ∉ (stop (mkEngine {})).2) :=
  ⟨(c7_idempotent_start_stop true { mkEngine {} with
      watching := true, hasStream := true }).1 rfl,
    (c7_idempotent_start_stop true (mkEngine {})).2 rfl⟩

/-- C8 counterexample: `reconnect` mutates the options object after
construction — firing a reconnect on an engine holding resume token 5
overwrites `cdcOptions.resumeAfter` (previously absent) with that token,
so `CdcOptions` is not immutable across engine operations. -/
theorem c8_counterexample_options_mutated :
    (let st0 : EngineState := { mkEngine {} with
      resumeToken := some 5
      pendingReconnects := 1 }
    (reconnectFire true st0).1.cdcOptions ≠ st0.cdcOptions ∧
    st0.cdcOptions.resumeAfter = none ∧
    (reconnectFire true st0).1.cdcOptions.resumeAfter = some 5) := by
  decide

theorem start_preserves_options (openOk : Bool) (st : EngineState) :
    (start openOk st).st.cdcOptions = st.cdcOptions := by
  unfold start
  split_ifs <;> rfl

theorem stop_preserves_options (st : EngineState) :
    (stop st).1.cdcOptions = st.cdcOptions := by
  unfold stop
  split_ifs <;> rfl

theorem reconnectBegin_preserves_options (st : EngineState) :
    (reconnectBegin st).1.cdcOptions = st.cdcOptions :=
  rfl

theorem handleError_preserves_options (st : EngineState) :
    (handleError st).1.cdcOptions = st.cdcOptions := by
  unfold handleError reconnectBegin
  split_ifs <;> rfl

theorem handleClose_preserves_options (st : EngineState) :
    (handleClose st).1.cdcOptions = st.cdcOptions := by
  unfold handleClose reconnectBegin
  dsimp only
  split_ifs <;> rfl

theorem handleChange_preserves_options (hookFails : OpKind → Bool)
    (beh : Nat → HandlerAct) (c : RawChange) (st : EngineState) :
    (handleChange hookFails beh c st).st.cdcOptions = st.cdcOptions := by
  unfold handleChange
  cases hci : c.id <;> dsimp only <;> split_ifs <;>
    first
      | rfl
      | · show (handleError _).1.cdcOptions = _
          rw [handleError_preserves_options]

theorem reconnectFire_options (openOk : Bool) (st : EngineState) :
    (reconnectFire openOk st).1.cdcOptions =
      (match st.resumeToken with
        | some t => { st.cdcOptions with resumeAfter := some t }
        | none => st.cdcOptions) := by
  unfold reconnectFire
  cases hci : st.resumeToken with
  | none =>
    simp only [hci]
    split_ifs <;>
      first
        | rw [start_preserves_options]
        | · show (reconnectBegin _).1.cdcOptions = _
            rw [reconnectBegin_preserves_options, start_preserves_options]
  | some t =>
    simp only [hci]
    split_ifs <;>
      first
        | rw [start_preserves_options]
        | · show (reconnectBegin _).1.cdcOptions = _
            rw [reconnectBegin_preserves_options, start_preserves_options]

/-- C8 (amended): every field of `CdcOptions` other than `resumeAfter` is
immutable after construction across all engine operations; `resumeAfter`
alone is overwritten — by `reconnect`, with the stored resume token, when
one is recorded (`start`, `stop`, dispatch, error handling and close
handling leave the options untouched entirely). -/
theorem c8_options_immutable_except_resume
    (openOk : Bool) (hookFails : OpKind → Bool) (beh : Nat → HandlerAct)
    (c : RawChange) (st : EngineState) :
    (start openOk st).st.cdcOptions = st.cdcOptions ∧
    (stop st).1.cdcOptions = st.cdcOptions ∧
    (handleChange hookFails beh c st).st.cdcOptions = st.cdcOptions ∧
    (handleError st).1.cdcOptions = st.cdcOptions ∧
    (handleClose st).1.cdcOptions = st.cdcOptions ∧
    stripResume (reconnectFire openOk st).1.cdcOptions = stripResume st.cdcOptions ∧
    (st.resumeToken = none → (reconnectFire openOk st).1.cdcOptions = st.cdcOptions) ∧
    (∀ t, st.resumeToken = some t →
      (reconnectFire openOk st).1.cdcOptions =
        { st.cdcOptions with resumeAfter := some t }) := by
  refine ⟨start_preserves_options openOk st, stop_preserves_options st,
    handleChange_preserves_options hookFails beh c st,
    handleError_preserves_options st, handleClose_preserves_options st, ?_, ?_, ?_⟩
  · rw [reconnectFire_options]
    cases st.resumeToken <;> rfl
  · intro hn
    rw [reconnectFire_options, hn]
  · intro t ht
    rw [reconnectFire_options, ht]

/-- C8 witness: the amended statement at a concrete engine holding resume
token 5, an insert notification and trivial handler behaviour. -/
theorem c8_witness :
    (let st0 : EngineState := { mkEngine {} with
      resumeToken := some 5
      pendingReconnects := 1 }
    (start true st0).st.cdcOptions = st0.cdcOptions ∧
    (stop st0).1.cdcOptions = st0.cdcOptions ∧
    (handleChange (fun _ => false) (fun _ => HandlerAct.ok)
      { id := some 6, operationType := "insert" } st0).st.cdcOptions = st0.cdcOptions ∧
    (handleError st0).1.cdcOptions = st0.cdcOptions ∧
    (handleClose st0).1.cdcOptions = st0.cdcOptions ∧
    stripResume (reconnectFire true st0).1.cdcOptions = stripResume st0.cdcOptions ∧
    (st0.resumeToken = none → (reconnectFire true st0).1.cdcOptions = st0.cdcOptions) ∧
    (∀ t, st0.resumeToken = some t →
      (reconnectFire true st0).1.cdcOptions =
        { st0.cdcOptions with resumeAfter := some t })) :=
  c8_options_immutable_except_resume true (fun _ => false) (fun _ => HandlerAct.ok)
    { id := some 6, operationType := "insert" }
    { mkEngine {} with
      resumeToken := some 5
      pendingReconnects := 1 }

/-- C6: a registered handler whose `onEvent` throws is caught (its failure
is recorded, i.e. logged) and every handler — including all handlers
registered after it — is still invoked exactly once, in registration
order; the registry is untouched and the dispatch never takes the
subscription-error path, whatever the handlers throw. -/
theorem c6_handler_errors_isolated (b : Nat → Bool) (hs : List Nat)
    (c : RawChange) (st : EngineState) :
    (notifyHandlers (behOfBool b) hs).2 = hs.map (fun h => (h, b h)) ∧
    (notifyHandlers (behOfBool b) hs).2.map Prod.fst = hs ∧
    (notifyHandlers (behOfBool b) hs).1 = hs ∧
    (handleChange (fun _ => false) (behOfBool b) c st).errorPath = false := by
  have haT : ∀ x, actThrows (behOfBool b) x = b x := fun x => by
    unfold actThrows behOfBool
    cases b x <;> rfl
  have h := runFrom_nonMut (behOfBool b) hs.length hs 0 (by omega)
    (fun x _ => by unfold behOfBool; cases b x <;> rfl)
  rw [notifyHandlers_eq_runFrom, h, List.drop_zero]
  refine ⟨?_, ?_, rfl, ?_⟩
  · exact List.map_congr_left fun x _ => by rw [haT]
  · simp [Function.comp_def]
  · unfold handleChange
    cases hci : c.id <;> simp

/-- C9 counterexample: three handlers `[1, 2, 3]`; handler 1 unregisters
itself from within its own `onEvent`.  Handler 2 — registered at dispatch
start and never unregistered — is skipped for that dispatch (the invocation
trace is `[1, 3]`), refuting that every other handler is still invoked
exactly once. -/
theorem c9_counterexample_self_unregister_skips_next :
    (notifyHandlers (behSelf 1) [1, 2, 3]).2.map Prod.fst = [1, 3] ∧
    (notifyHandlers (behSelf 1) [1, 2, 3]).1 = [2, 3] ∧
    ¬ 2 ∈ (notifyHandlers (behSelf 1) [1, 2, 3]).2.map Prod.fst := by
  decide

/-- Walking the dispatch loop across a segment of handlers that do not
touch the registry appends their invocations and continues beyond the
segment. -/
theorem runFrom_walk (beh : Nat → HandlerAct) :
    ∀ m hs k, k + m ≤ hs.length →
      (∀ x ∈ (hs.drop k).take m, nonMutAct (beh x) = true) →
      runFrom beh hs k =
        ((runFrom beh hs (k + m)).1,
          ((hs.drop k).take m).map (fun h => (h, actThrows beh h)) ++
            (runFrom beh hs (k + m)).2) := by
  intro m
  induction m with
  | zero =>
    intro hs k _ _
    simp
  | succ m ih =>
    intro hs k hlen hnm
    have hlt : k < hs.length := by omega
    have hdrop : hs.drop k = hs.get ⟨k, hlt⟩ :: hs.drop (k + 1) :=
      List.drop_eq_getElem_cons hlt
    have hhd : nonMutAct (beh (hs.get ⟨k, hlt⟩)) = true := by
      apply hnm
      rw [hdrop, List.take_succ_cons]
      exact List.mem_cons_self _ _
    have hnm2 : ∀ x ∈ (hs.drop (k + 1)).take m, nonMutAct (beh x) = true := by
      intro x hx
      apply hnm
      rw [hdrop, List.take_succ_cons]
      exact List.mem_cons_of_mem _ hx
    have hkm : k + (m + 1) = (k + 1) + m := by omega
    rw [runFrom_step beh hs k hlt, handlerEffect_of_nonMut beh _ hs hhd,
      ih hs (k + 1) (by omega) hnm2, hkm, hdrop, List.take_succ_cons]
    rfl

/-- C9 (amended): a handler unregistered before the next notification
arrives is not invoked for that notification (and more generally a handler
absent from the registry at dispatch start is never invoked).  Mid-dispatch
unregistration, however, does disturb the live iteration: a handler that
unregisters itself from within its own `onEvent` causes the handler
immediately after it to be skipped for that dispatch — the handlers before
it and after the skipped one are each invoked exactly once, in order, and
the skipped handler alone stays registered without being invoked. -/
theorem c9_unregistration_semantics
    (beh : Nat → HandlerAct) (hs : List Nat) (h : Nat)
    (a bb : Nat) (xs ys : List Nat)
    (hnd : hs.Nodup) (hax : a ∉ xs) (hay : a ∉ ys) :
    (h ∉ hs → h ∉ (notifyHandlers beh hs).2.map Prod.fst) ∧
    h ∉ (notifyHandlers beh (unregisterHandler h hs)).2.map Prod.fst ∧
    (notifyHandlers (behSelf a) (xs ++ a :: bb :: ys)).2.map Prod.fst = xs ++ a :: ys ∧
    (notifyHandlers (behSelf a) (xs ++ a :: bb :: ys)).1 = xs ++ bb :: ys := by
  have hsubset : ∀ hs0 : List Nat, ∀ x ∈ (notifyHandlers beh hs0).2.map Prod.fst, x ∈ hs0 := by
    intro hs0
    rw [notifyHandlers_eq_runFrom]
    exact runFrom_trace_subset beh hs0.length hs0 0 (by omega)
  refine ⟨?_, ?_, ?_⟩
  · intro hno hmem
    exact hno (hsubset hs h hmem)
  · intro hmem
    exact absurd (hsubset (unregisterHandler h hs) h hmem) hnd.not_mem_erase
  · set hs9 : List Nat := xs ++ a :: bb :: ys with hhs9
    have hlen9 : hs9.length = xs.length + (ys.length + 2) := by
      rw [hhs9]
      simp
    have htake : (hs9.drop 0).take xs.length = xs := by
      rw [List.drop_zero, hhs9, List.take_left]
    have hnmxs : ∀ x ∈ (hs9.drop 0).take xs.length, nonMutAct (behSelf a x) = true := by
      intro x hx
      rw [htake] at hx
      have hxa : x ≠ a := fun hxa => hax (hxa ▸ hx)
      unfold behSelf
      simp [hxa, nonMutAct]
    have hwalk := runFrom_walk (behSelf a) xs.length hs9 0 (by omega) hnmxs
    simp only [Nat.zero_add] at hwalk
    rw [htake] at hwalk
    have hltm : xs.length < hs9.length := by omega
    have hdropm : hs9.drop xs.length = a :: bb :: ys := by
      rw [hhs9]
      exact List.drop_left xs _
    have hcons : a :: (bb :: ys) = hs9.get ⟨xs.length, hltm⟩ :: hs9.drop (xs.length + 1) := by
      rw [← hdropm]
      exact List.drop_eq_getElem_cons hltm
    have hget : hs9.get ⟨xs.length, hltm⟩ = a := by
      injection hcons with h1 h2
      exact h1.symm
    have hba : behSelf a a = HandlerAct.unregisterSelf := by
      unfold behSelf
      simp
    have heff : handlerEffect (behSelf a) (hs9.get ⟨xs.length, hltm⟩) hs9 = xs ++ bb :: ys := by
      rw [hget]
      simp only [handlerEffect, hba, unregisterHandler, hhs9]
      rw [List.erase_append_right _ (by simpa using hax), List.erase_cons_head]
    have hth : actThrows (behSelf a) a = false := by
      unfold actThrows
      rw [hba]
      rfl
    have hstep := runFrom_step (behSelf a) hs9 xs.length hltm
    rw [heff, hget, hth] at hstep
    have hdropT : (xs ++ bb :: ys).drop (xs.length + 1) = ys := by
      have hd : (xs ++ bb :: ys).drop (xs.length + 1) = (bb :: ys).drop 1 :=
        List.drop_append 1
      simpa using hd
    have hnmys : ∀ x ∈ (xs ++ bb :: ys).drop (xs.length + 1),
        nonMutAct (behSelf a x) = true := by
      intro x hx
      rw [hdropT] at hx
      have hxa : x ≠ a := fun hxa => hay (hxa ▸ hx)
      unfold behSelf
      simp [hxa, nonMutAct]
    have htail := runFrom_nonMut (behSelf a) ((xs ++ bb :: ys).length - (xs.length + 1))
      (xs ++ bb :: ys) (xs.length + 1) rfl hnmys
    rw [hdropT] at htail
    rw [htail] at hstep
    rw [notifyHandlers_eq_runFrom, hwalk, hstep]
    constructor
    · simp [Function.comp_def]
    · rfl

/-- C9 witness: registry `[1, 2, 3]` with handler 2 unregistered before
dispatch, and the self-unregistration scenario with handler 1 removing
itself ahead of handlers 2 and 3. -/
theorem c9_witness :
    (2 ∉ ([1, 2, 3] : List Nat) →
      2 ∉ (notifyHandlers (fun _ => HandlerAct.ok) [1, 2, 3]).2.map Prod.fst) ∧
    2 ∉ (notifyHandlers (fun _ => HandlerAct.ok)
      (unregisterHandler 2 [1, 2, 3])).2.map Prod.fst ∧
    (notifyHandlers (behSelf 1) ([] ++ 1 :: 2 :: [3])).2.map Prod.fst = [] ++ 1 :: [3] ∧
    (notifyHandlers (behSelf 1) ([] ++ 1 :: 2 :: [3])).1 = [] ++ 2 :: [3] :=
  c9_unregistration_semantics (fun _ => HandlerAct.ok) [1, 2, 3] 2 1 2 [] [3]
    (by decide) (by decide) (by decide)

/-- C10: registering the same handler twice is a no-op — after any sequence
of `registerHandler` calls starting from the empty registry the registry
has no duplicates, so any handler occurs at most once in it and its
`onEvent` is invoked at most once per notification dispatch. -/
theorem c10_register_idempotent (regs : List Nat) (h : Nat) (b : Nat → Bool) :
    (regs.foldl (fun hs x => registerHandler x hs) []).Nodup ∧
    (regs.foldl (fun hs x => registerHandler x hs) []).count h ≤ 1 ∧
    ((notifyHandlers (behOfBool b)
      (regs.foldl (fun hs x => registerHandler x hs) [])).2.map Prod.fst).count h ≤ 1 := by
  have hreg : ∀ (l : List Nat), l.Nodup → ∀ x, (registerHandler x l).Nodup := by
    intro l hl x
    unfold registerHandler
    split_ifs with hc
    · exact hl
    · have hx : x ∉ l := by simpa using hc
      exact List.Nodup.append hl (List.nodup_singleton x) (by simpa using hx)
  have hfold : ∀ (rs acc : List Nat), acc.Nodup →
      (rs.foldl (fun hs x => registerHandler x hs) acc).Nodup := by
    intro rs
    induction rs with
    | nil => intro acc hacc; exact hacc
    | cons r rs ih => intro acc hacc; exact ih _ (hreg acc hacc r)
  have hnd := hfold regs [] List.nodup_nil
  have htr : ∀ L : List Nat, (notifyHandlers (behOfBool b) L).2.map Prod.fst = L := by
    intro L
    rw [notifyHandlers_eq_runFrom,
      runFrom_nonMut (behOfBool b) (L.length - 0) L 0 rfl
        (fun x _ => by unfold behOfBool; cases b x <;> rfl)]
    simp [Function.comp_def]
  refine ⟨hnd, List.nodup_iff_count_le_one.mp hnd h, ?_⟩
  rw [htr]
  exact List.nodup_iff_count_le_one.mp hnd h
